import Mathlib

/-!
Animation timeline coordination of `KisImageAnimationInterface`

A shallow embedding of `libs/image/kis_image_animation_interface.cpp`:
the private state, the keyframe aggregator `findLastKeyframeTimeRecursive`,
`totalLength`, the time-switch coordinator `switchCurrentTimeAsync` and the
invalidation tracker `notifyNodeChanged`.

C++ `int` values are integers; the one arithmetic operation of the file
(`lastKey + 1` in `totalLength`) is reduced to the 32-bit two's-complement
range by `wrapInt`.  Qt signals and stroke submissions are recorded in an
effect log returned next to the new state.
-/

namespace Krita

/-! ## Machine integers -/

/-- Smallest value of a 32-bit `int`. -/
def INT_MIN : Int := -2147483648

/-- Largest value of a 32-bit `int`. -/
def INT_MAX : Int := 2147483647

/-- Two's-complement reduction of an integer to the 32-bit `int` range. -/
def wrapInt (x : Int) : Int := (x + 2147483648) % 4294967296 - 2147483648

/-- The value is representable as a 32-bit `int`. -/
def isInt (x : Int) : Prop := INT_MIN ≤ x ∧ x ≤ INT_MAX

instance (x : Int) : Decidable (isInt x) := by
  unfold isInt; exact inferInstance

/-! ## Time ranges, keyframes and the scene tree -/

/-- Modelled from the spec: the value type `KisTimeRange` (kis_time_range.h is
not part of the excerpt).  Spec §3: `{start: integer, end: integer|∞, valid:
bool}`; an infinite range has no upper bound.  `end_` is the value reported by
the accessor `end()`; it bounds the range only when `isInfinite` is false. -/
structure KisTimeRange where
  start : Int
  end_ : Int
  isInfinite : Bool
  valid : Bool
deriving DecidableEq, Repr

namespace KisTimeRange

/-- Modelled from the spec: the default-constructed range, which is not valid
(spec §3: an unset playback range falls back to the full clip range); its
bounds carry no meaning. -/
def default : KisTimeRange := ⟨0, -1, false, false⟩

/-- Modelled from the spec: `KisTimeRange::fromTime(start, end)`, the closed
range from `start` to `end`, valid when `start ≤ end` (spec §3). -/
def fromTime (start end_ : Int) : KisTimeRange := ⟨start, end_, false, decide (start ≤ end_)⟩

/-- Modelled from the spec: `KisTimeRange::infinite(from)`, the range with no
upper bound starting at `from` (spec §3, §4.1); its `end_` carries no meaning. -/
def infinite (from_ : Int) : KisTimeRange := ⟨from_, from_, true, true⟩

/-- Modelled from the spec: `contains(time)`, the containment test of a valid
range (spec §3, §4.1). -/
def contains (r : KisTimeRange) (time : Int) : Bool :=
  r.valid && decide (r.start ≤ time) && (r.isInfinite || decide (time ≤ r.end_))

/-- Modelled from the spec: `isValid()`. -/
def isValid (r : KisTimeRange) : Bool := r.valid

end KisTimeRange

/-- A keyframe, reduced to what the interface reads: `keyframe->time()`. -/
structure KisKeyframe where
  time : Int
deriving DecidableEq, Repr

/-- Modelled from the spec: a keyframe channel (kis_keyframe_channel.h is not
part of the excerpt), reduced to the three members the interface calls:
`id()`, `lastKeyframe()` (null when the channel has no keyframe) and
`affectedFrames(time)` (spec §3: a channel "can report the minimal time range
affected by a change at a given time"). -/
structure KisKeyframeChannel where
  id : String
  lastKeyframe : Option KisKeyframe
  affectedFrames : Int → KisTimeRange

/-- Modelled from the spec: a scene node (kis_node.h is not part of the
excerpt): whether it `inherits("KisSelectionMask")`, its `keyframeChannels()`,
and its children in `firstChild()` / `nextSibling()` order. -/
inductive KisNode where
  | mk (isSelectionMask : Bool) (keyframeChannels : List KisKeyframeChannel)
      (children : List KisNode)

namespace KisNode

/-- Accessor `inherits("KisSelectionMask")`. -/
def isSelectionMask : KisNode → Bool
  | mk b _ _ => b

/-- Accessor `keyframeChannels()`. -/
def keyframeChannels : KisNode → List KisKeyframeChannel
  | mk _ cs _ => cs

/-- The children of a node: `firstChild()` followed by the `nextSibling()` chain. -/
def children : KisNode → List KisNode
  | mk _ _ ns => ns

/-- Accessor `getKeyframeChannel(id)`: the channel with that id, or null. -/
def getKeyframeChannel (n : KisNode) (id : String) : Option KisKeyframeChannel :=
  n.keyframeChannels.find? (fun c => c.id == id)

end KisNode

/-- Modelled from the spec: the id of the content channel,
`KisKeyframeChannel::Content.id()` (kis_keyframe_channel.h is not part of the
excerpt; spec §4.5 calls it the "content keyframe channel"). -/
def contentChannelId : String := "content"

/-! ## The keyframe aggregator -/

/-- The `Q_FOREACH` loop of `findLastKeyframeTimeRecursive` over the channels
of one node: `time = std::max(time, keyframe->time())` for every channel whose
`lastKeyframe()` is not null. -/
def channelsLoop : List KisKeyframeChannel → Int → Int
  | [], time => time
  | channel :: rest, time =>
    match channel.lastKeyframe with
    | some keyframe => channelsLoop rest (max time keyframe.time)
    | none => channelsLoop rest time

mutual
/-- Embedding of `findLastKeyframeTimeRecursive(KisNodeSP node)`: `time`
starts at 0, is raised by the channel loop and then by the loop over the
children. -/
def findLastKeyframeTimeRecursive : KisNode → Int
  | .mk _ channels children => siblingsLoop children (channelsLoop channels 0)
/-- The `while (child)` loop of `findLastKeyframeTimeRecursive`:
`time = std::max(time, findLastKeyframeTimeRecursive(child))`, then
`child = child->nextSibling()`. -/
def siblingsLoop : List KisNode → Int → Int
  | [], time => time
  | child :: rest, time => siblingsLoop rest (max time (findLastKeyframeTimeRecursive child))
end

/-! ## Effects: strokes handed to the image and Qt signals -/

/-- A rectangle `QRect`, carried through unchanged by the interface. -/
structure QRect where
  x : Int
  y : Int
  width : Int
  height : Int
deriving DecidableEq, Repr

/-- The stroke strategies the interface constructs: `KisSwitchTimeStrokeStrategy
(frameId, needsRegeneration, this, undoAdapter)` (the last field records whether
the undo adapter is non-null), `KisRegenerateFrameStrokeStrategy(this)` and
`KisRegenerateFrameStrokeStrategy(frameId, dirtyRegion, this)`. -/
inductive StrokeStrategy where
  | switchTime (frameId : Int) (needsRegeneration : Bool) (withUndoAdapter : Bool)
  | regenerateFrame
  | regenerateExternalFrame (frameId : Int) (dirtyRegion : List QRect)
deriving DecidableEq, Repr

/-- What a member function does to the outside world, in program order:
`image->startStroke`, `image->endStroke` and the emitted signals. -/
inductive Effect where
  | startStroke (strategy : StrokeStrategy)
  | endStroke (strategy : StrokeStrategy)
  | sigInternalRequestTimeSwitch (time : Int) (useUndo : Bool)
  | sigUiTimeChanged (time : Int)
  | sigFramesChanged (range : KisTimeRange) (rect : QRect)
  | sigFullClipRangeChanged
  | sigPlaybackRangeChanged
  | sigFramerateChanged
  | sigFrameReady (time : Int)
  | sigFrameCancelled
deriving DecidableEq, Repr

namespace Effect

/-- The effect is the start of a switch-time stroke. -/
def isSwitchStroke : Effect → Bool
  | startStroke (.switchTime _ _ _) => true
  | _ => false

/-- The effect is the start of a whole-scene regenerate-frame stroke. -/
def isRegenerateStroke : Effect → Bool
  | startStroke .regenerateFrame => true
  | _ => false

/-- The effect is the start of any stroke. -/
def isStroke : Effect → Bool
  | startStroke _ => true
  | _ => false

/-- The effect is a `sigFramesChanged` emission. -/
def isFramesChanged : Effect → Bool
  | sigFramesChanged _ _ => true
  | _ => false

/-- The effect is a `sigUiTimeChanged` emission. -/
def isUiTimeChanged : Effect → Bool
  | sigUiTimeChanged _ => true
  | _ => false

end Effect

/-! ## The switch token -/

/-- Modelled from the spec: the shared token of `KisSwitchTimeStrokeStrategy`
(kis_switch_time_stroke_strategy.h is not part of the excerpt).  Spec §3: it
holds the destination time and whether regeneration is required, and is
resettable while its task has not yet started executing. -/
structure SharedToken where
  time : Int
  needsRegeneration : Bool
  resettable : Bool
deriving DecidableEq, Repr

namespace SharedToken

/-- Modelled from the spec: `tryResetDestinationTime(time, needsRegeneration)`.
Spec §3: while the task has not started, a new request overwrites the
destination time and the regeneration flag; once the task runs the token is no
longer resettable.  Returns the success flag and the token afterwards. -/
def tryResetDestinationTime (token : SharedToken) (time : Int) (needsRegeneration : Bool) :
    Bool × SharedToken :=
  if token.resettable then (true, { token with time := time, needsRegeneration := needsRegeneration })
  else (false, token)

end SharedToken

/-! ## The private state -/

/-- Embedding of `KisImageAnimationInterface::Private`.  The `image` pointer is
not a field: the scene root it gives access to is passed to the operations that
read it, and the strokes it receives are in the effect log.  `switchToken` is
the weak reference: `none` when `toStrongRef()` is null. -/
structure Private where
  externalFrameActive : Bool
  frameInvalidationBlocked : Bool
  fullClipRange : KisTimeRange
  playbackRange : KisTimeRange
  framerate : Int
  cachedLastFrameValue : Int
  switchToken : Option SharedToken
  m_currentTime : Int
  m_currentUITime : Int
deriving DecidableEq, Repr

namespace Private

/-- Accessor `Private::currentTime()`. -/
def currentTime (d : Private) : Int := d.m_currentTime

/-- Accessor `Private::currentUITime()`. -/
def currentUITime (d : Private) : Int := d.m_currentUITime

/-- Mutator `Private::setCurrentTime(value)`. -/
def setCurrentTime (d : Private) (value : Int) : Private := { d with m_currentTime := value }

/-- Mutator `Private::setCurrentUITime(value)`. -/
def setCurrentUITime (d : Private) (value : Int) : Private := { d with m_currentUITime := value }

end Private

/-- The type of `KisTimeRange::calculateTimeRangeRecursive(node, time, range,
exclusive)`, which is declared in kis_time_range.h and not part of the excerpt:
it is a parameter of the operations that call it.  The in-out argument `range`
is the third argument and the result. -/
abbrev CalcRange := KisNode → Int → KisTimeRange → Bool → KisTimeRange

namespace KisImageAnimationInterface

/-- Embedding of the constructors `Private::Private()` and
`KisImageAnimationInterface(KisImage*)`. -/
def construct : Private :=
  { externalFrameActive := false
    frameInvalidationBlocked := false
    fullClipRange := KisTimeRange.fromTime 0 100
    playbackRange := KisTimeRange.default
    framerate := 24
    cachedLastFrameValue := -1
    switchToken := none
    m_currentTime := 0
    m_currentUITime := 0 }

/-- Embedding of `currentTime()`. -/
def currentTime (d : Private) : Int := d.currentTime

/-- Embedding of `currentUITime()`. -/
def currentUITime (d : Private) : Int := d.currentUITime

/-- Embedding of `fullClipRange()`. -/
def fullClipRange (d : Private) : KisTimeRange := d.fullClipRange

/-- Embedding of `setFullClipRange(range)`. -/
def setFullClipRange (d : Private) (range : KisTimeRange) : Private × List Effect :=
  ({ d with fullClipRange := range }, [.sigFullClipRangeChanged])

/-- Embedding of `playbackRange()`. -/
def playbackRange (d : Private) : KisTimeRange :=
  if d.playbackRange.isValid then d.playbackRange else d.fullClipRange

/-- Embedding of `setPlaybackRange(range)`. -/
def setPlaybackRange (d : Private) (range : KisTimeRange) : Private × List Effect :=
  ({ d with playbackRange := range }, [.sigPlaybackRangeChanged])

/-- Embedding of `framerate()`. -/
def framerate (d : Private) : Int := d.framerate

/-- Embedding of `setFramerate(fps)`. -/
def setFramerate (d : Private) (fps : Int) : Private × List Effect :=
  ({ d with framerate := fps }, [.sigFramerateChanged])

/-- Embedding of `externalFrameActive()`. -/
def externalFrameActive (d : Private) : Bool := d.externalFrameActive

/-- Embedding of `explicitlySetCurrentTime(frameId)`. -/
def explicitlySetCurrentTime (d : Private) (frameId : Int) : Private :=
  d.setCurrentTime frameId

/-- Embedding of the slot `switchCurrentTimeAsync(frameId, useUndo)`; `root` is
`m_d->image->root()`. -/
def switchCurrentTimeAsync (calculateTimeRangeRecursive : CalcRange) (root : KisNode) (d : Private)
    (frameId : Int) (useUndo : Bool) : Private × List Effect :=
  if currentUITime d = frameId then (d, [])
  else
    let range := calculateTimeRangeRecursive root (currentUITime d) (KisTimeRange.infinite 0) true
    let needsRegeneration := !range.contains frameId
    -- `!token || !token->tryResetDestinationTime(frameId, needsRegeneration)`
    let reset : Option SharedToken :=
      match d.switchToken with
      | none => none
      | some token =>
        let r := token.tryResetDestinationTime frameId needsRegeneration
        if r.1 then some r.2 else none
    match reset with
    | some token =>
      (({ d with switchToken := some token }).setCurrentUITime frameId,
        [.sigUiTimeChanged frameId])
    | none =>
      let strategy := StrokeStrategy.switchTime frameId needsRegeneration useUndo
      let d1 := { d with switchToken := some ⟨frameId, needsRegeneration, true⟩ }
      let switchStroke := [Effect.startStroke strategy, Effect.endStroke strategy]
      let regenStroke :=
        if needsRegeneration then
          [Effect.startStroke .regenerateFrame, Effect.endStroke .regenerateFrame]
        else []
      (d1.setCurrentUITime frameId,
        switchStroke ++ regenStroke ++ [.sigUiTimeChanged frameId])

/-- Embedding of `requestTimeSwitchNonGUI(time, useUndo)`: it emits
`sigInternalRequestTimeSwitch`, which the constructor connected to the slot
`switchCurrentTimeAsync`; the slot runs when the signal is delivered. -/
def requestTimeSwitchNonGUI (calculateTimeRangeRecursive : CalcRange) (root : KisNode) (d : Private)
    (time : Int) (useUndo : Bool) : Private × List Effect :=
  let r := switchCurrentTimeAsync calculateTimeRangeRecursive root d time useUndo
  (r.1, Effect.sigInternalRequestTimeSwitch time useUndo :: r.2)

/-- Embedding of `requestTimeSwitchWithUndo(time)`. -/
def requestTimeSwitchWithUndo (calculateTimeRangeRecursive : CalcRange) (root : KisNode) (d : Private)
    (time : Int) : Private × List Effect :=
  if currentUITime d = time then (d, [])
  else requestTimeSwitchNonGUI calculateTimeRangeRecursive root d time true

/-- Embedding of `requestFrameRegeneration(frameId, dirtyRegion)`. -/
def requestFrameRegeneration (d : Private) (frameId : Int) (dirtyRegion : List QRect) :
    Private × List Effect :=
  let strategy := StrokeStrategy.regenerateExternalFrame frameId dirtyRegion
  (d, [.startStroke strategy, .endStroke strategy])

/-- Embedding of `saveAndResetCurrentTime(frameId, savedValue)`; the second
component is the value written to `*savedValue`. -/
def saveAndResetCurrentTime (d : Private) (frameId : Int) : Private × Int :=
  let d1 := { d with externalFrameActive := true }
  (d1.setCurrentTime frameId, d1.currentTime)

/-- Embedding of `restoreCurrentTime(savedValue)`; `savedValue` is `*savedValue`. -/
def restoreCurrentTime (d : Private) (savedValue : Int) : Private :=
  { d.setCurrentTime savedValue with externalFrameActive := false }

/-- Embedding of `setDefaultProjectionColor(color)`: the call of
`image->setDefaultProjectionColor` between the save and the restore touches
the image only. -/
def setDefaultProjectionColor (d : Private) : Private :=
  let r := saveAndResetCurrentTime d (currentTime d)
  restoreCurrentTime r.1 r.2

/-- Embedding of `notifyFrameReady()`. -/
def notifyFrameReady (d : Private) : Private × List Effect :=
  (d, [.sigFrameReady d.currentTime])

/-- Embedding of `notifyFrameCancelled()`. -/
def notifyFrameCancelled (d : Private) : Private × List Effect :=
  (d, [.sigFrameCancelled])

/-- Embedding of `invalidateFrames(range, rect)`. -/
def invalidateFrames (d : Private) (range : KisTimeRange) (rect : QRect) :
    Private × List Effect :=
  ({ d with cachedLastFrameValue := -1 }, [.sigFramesChanged range rect])

/-- Embedding of `notifyNodeChanged(node, rect, recursive)`. -/
def notifyNodeChanged (calculateTimeRangeRecursive : CalcRange) (d : Private) (node : KisNode) (rect : QRect)
    (recursive : Bool) : Private × List Effect :=
  if externalFrameActive d || d.frameInvalidationBlocked then (d, [])
  else if node.isSelectionMask then (d, [])
  else
    let channel := node.getKeyframeChannel contentChannelId
    if recursive then
      let affectedRange := calculateTimeRangeRecursive node (currentTime d) KisTimeRange.default false
      invalidateFrames d affectedRange rect
    else
      match channel with
      | some channel =>
        let currentTime := d.currentTime
        invalidateFrames d (channel.affectedFrames currentTime) rect
      | none => invalidateFrames d (KisTimeRange.infinite 0) rect

/-- Embedding of `blockFrameInvalidation(value)`. -/
def blockFrameInvalidation (d : Private) (value : Bool) : Private :=
  { d with frameInvalidationBlocked := value }

/-- Embedding of `totalLength()`: the returned length and the state afterwards
(the cache may have been filled); `root` is `m_d->image->root()`. -/
def totalLength (d : Private) (root : KisNode) : Int × Private :=
  let d1 :=
    if d.cachedLastFrameValue < 0 then
      { d with cachedLastFrameValue := findLastKeyframeTimeRecursive root }
    else d
  let lastKey := d1.cachedLastFrameValue
  let lastKey := max lastKey d1.fullClipRange.end_
  let lastKey := max lastKey d1.currentUITime
  (wrapInt (lastKey + 1), d1)

end KisImageAnimationInterface

/-! ## The latest keyframe of a subtree, as the specification words it -/

/-- The times of the last keyframes of a list of channels (channels without a
keyframe contribute nothing). -/
def channelTimes : List KisKeyframeChannel → List Int
  | [] => []
  | channel :: rest =>
    match channel.lastKeyframe with
    | some keyframe => keyframe.time :: channelTimes rest
    | none => channelTimes rest

mutual
/-- The times of the last keyframes of all channels of all nodes of the
subtree of a node: the node itself, then its descendants. -/
def subtreeLastKeyframeTimes : KisNode → List Int
  | .mk _ channels children => channelTimes channels ++ forestLastKeyframeTimes children
/-- The last-keyframe times of the subtrees of a list of siblings. -/
def forestLastKeyframeTimes : List KisNode → List Int
  | [] => []
  | child :: rest => subtreeLastKeyframeTimes child ++ forestLastKeyframeTimes rest
end

/-- The specification of the aggregator, in the spec's words: the maximum of
the last-keyframe times of the subtree, and 0 if there is none. -/
def latestKeyframeTime (root : KisNode) : Int :=
  match subtreeLastKeyframeTimes root with
  | [] => 0
  | t :: ts => ts.foldl max t

/-- The result `r` of raising the start value `a` by every element of `l`: it
is at least `a`, at least every element, and is `a` or one of the elements. -/
def IsRaisedMax (l : List Int) (a r : Int) : Prop :=
  a ≤ r ∧ (∀ x ∈ l, x ≤ r) ∧ (r = a ∨ r ∈ l)

/-! ## Operation sequences -/

/-- One call of `switchCurrentTimeAsync`, with the scene root at the time of
the call. -/
structure SwitchRequest where
  frameId : Int
  useUndo : Bool
  root : KisNode

/-- A sequence of `switchCurrentTimeAsync` calls issued back to back: the
executor starts no task in between, so a resettable token stays resettable.
Returns the final state and the effects of all calls in order. -/
def runSwitches (calculateTimeRangeRecursive : CalcRange) :
    Private → List SwitchRequest → Private × List Effect
  | d, [] => (d, [])
  | d, r :: rest =>
    let step := KisImageAnimationInterface.switchCurrentTimeAsync calculateTimeRangeRecursive
      r.root d r.frameId r.useUndo
    let tail := runSwitches calculateTimeRangeRecursive step.1 rest
    (tail.1, step.2 ++ tail.2)

/-- No resettable switch token is reachable from the state: the weak reference
is null, or `tryResetDestinationTime` on its token fails. -/
def noResettableToken (d : Private) : Bool :=
  match d.switchToken with
  | none => true
  | some token => !token.resettable

/-- The time of the last request of a sequence, or `current` when the
sequence is empty. -/
def lastRequested (current : Int) : List SwitchRequest → Int
  | [] => current
  | r :: rest => lastRequested r.frameId rest

/-- A call of a public member function of the interface, with its arguments
(and the scene root where the function reads it). -/
inductive Op where
  | setFullClipRange (range : KisTimeRange)
  | setPlaybackRange (range : KisTimeRange)
  | setFramerate (fps : Int)
  | requestTimeSwitchWithUndo (root : KisNode) (time : Int)
  | requestTimeSwitchNonGUI (root : KisNode) (time : Int) (useUndo : Bool)
  | switchCurrentTimeAsync (root : KisNode) (frameId : Int) (useUndo : Bool)
  | explicitlySetCurrentTime (frameId : Int)
  | requestFrameRegeneration (frameId : Int) (dirtyRegion : List QRect)
  | saveAndResetCurrentTime (frameId : Int)
  | restoreCurrentTime (savedValue : Int)
  | setDefaultProjectionColor
  | notifyFrameReady
  | notifyFrameCancelled
  | notifyNodeChanged (node : KisNode) (rect : QRect) (recursive : Bool)
  | invalidateFrames (range : KisTimeRange) (rect : QRect)
  | blockFrameInvalidation (value : Bool)
  | totalLength (root : KisNode)

namespace Op

/-- The call is `restoreCurrentTime`, or contains one (`setDefaultProjectionColor`). -/
def restores : Op → Bool
  | restoreCurrentTime _ => true
  | setDefaultProjectionColor => true
  | _ => false

/-- The state after the call and its effects. -/
def apply (calculateTimeRangeRecursive : CalcRange) (d : Private) : Op → Private × List Effect
  | setFullClipRange range => KisImageAnimationInterface.setFullClipRange d range
  | setPlaybackRange range => KisImageAnimationInterface.setPlaybackRange d range
  | setFramerate fps => KisImageAnimationInterface.setFramerate d fps
  | requestTimeSwitchWithUndo root time =>
    KisImageAnimationInterface.requestTimeSwitchWithUndo calculateTimeRangeRecursive root d time
  | requestTimeSwitchNonGUI root time useUndo =>
    KisImageAnimationInterface.requestTimeSwitchNonGUI calculateTimeRangeRecursive root d time
      useUndo
  | switchCurrentTimeAsync root frameId useUndo =>
    KisImageAnimationInterface.switchCurrentTimeAsync calculateTimeRangeRecursive root d frameId
      useUndo
  | explicitlySetCurrentTime frameId =>
    (KisImageAnimationInterface.explicitlySetCurrentTime d frameId, [])
  | requestFrameRegeneration frameId dirtyRegion =>
    KisImageAnimationInterface.requestFrameRegeneration d frameId dirtyRegion
  | saveAndResetCurrentTime frameId =>
    ((KisImageAnimationInterface.saveAndResetCurrentTime d frameId).1, [])
  | restoreCurrentTime savedValue =>
    (KisImageAnimationInterface.restoreCurrentTime d savedValue, [])
  | setDefaultProjectionColor => (KisImageAnimationInterface.setDefaultProjectionColor d, [])
  | notifyFrameReady => KisImageAnimationInterface.notifyFrameReady d
  | notifyFrameCancelled => KisImageAnimationInterface.notifyFrameCancelled d
  | notifyNodeChanged node rect recursive =>
    KisImageAnimationInterface.notifyNodeChanged calculateTimeRangeRecursive d node rect recursive
  | invalidateFrames range rect => KisImageAnimationInterface.invalidateFrames d range rect
  | blockFrameInvalidation value =>
    (KisImageAnimationInterface.blockFrameInvalidation d value, [])
  | totalLength root => ((KisImageAnimationInterface.totalLength d root).2, [])

/-- The frame rate after the call, given the frame rate before it: only
`setFramerate` writes the field. -/
def framerateAfter (current : Int) : Op → Int
  | setFramerate fps => fps
  | _ => current

/-- The call is not a `setFramerate` with a zero or negative argument. -/
def keepsFrameratePositive : Op → Bool
  | setFramerate fps => decide (0 < fps)
  | _ => true

end Op

/-- A sequence of calls, run in order from a state: the final state and the
effects of all calls. -/
def runOps (calculateTimeRangeRecursive : CalcRange) : Private → List Op → Private × List Effect
  | d, [] => (d, [])
  | d, op :: rest =>
    let step := op.apply calculateTimeRangeRecursive d
    let tail := runOps calculateTimeRangeRecursive step.1 rest
    (tail.1, step.2 ++ tail.2)

/-! ## Sample data -/

/-- A leaf with a single content channel holding the given last keyframe. -/
def leafWithKey (t : Int) : KisNode :=
  .mk false [⟨contentChannelId, some ⟨t⟩, fun _ => KisTimeRange.infinite 0⟩] []

/-- A leaf whose content channel reports the three frames starting at the
given time as affected. -/
def leafAffectingThree : KisNode :=
  .mk false [⟨contentChannelId, some ⟨4⟩, fun t => KisTimeRange.fromTime t (t + 2)⟩] []

/-- A leaf whose content channel has no keyframe. -/
def leafWithoutKey : KisNode :=
  .mk false [⟨contentChannelId, none, fun _ => KisTimeRange.infinite 0⟩] []

/-- A node without channels and without children. -/
def emptyNode : KisNode := .mk false [] []

/-- A range calculation that leaves the range it is given unchanged. -/
def keepRange : CalcRange := fun _ _ range _ => range

/-- A range calculation that reports the single frame `time`. -/
def singleFrame : CalcRange := fun _ time _ _ => KisTimeRange.fromTime time time

/-- A sample rectangle. -/
def sampleRect : QRect := ⟨0, 0, 64, 64⟩

/-! ## Helper lemmas -/

theorem wrapInt_of_isInt {x : Int} (h : isInt x) : wrapInt x = x := by
  unfold isInt INT_MIN INT_MAX at h
  unfold wrapInt
  omega

theorem IsRaisedMax.unique {l : List Int} {a r r' : Int}
    (h : IsRaisedMax l a r) (h' : IsRaisedMax l a r') : r = r' := by
  obtain ⟨h1, h2, h3⟩ := h
  obtain ⟨h1', h2', h3'⟩ := h'
  apply le_antisymm
  · rcases h3 with h3 | h3
    · omega
    · exact h2' r h3
  · rcases h3' with h3' | h3'
    · omega
    · exact h2 r' h3'

theorem IsRaisedMax.append {l₁ l₂ : List Int} {a b c : Int}
    (h₁ : IsRaisedMax l₁ a b) (h₂ : IsRaisedMax l₂ b c) : IsRaisedMax (l₁ ++ l₂) a c := by
  obtain ⟨h1, h2, h3⟩ := h₁
  obtain ⟨h1', h2', h3'⟩ := h₂
  refine ⟨le_trans h1 h1', ?_, ?_⟩
  · intro x hx
    rcases List.mem_append.mp hx with hx | hx
    · exact le_trans (h2 x hx) h1'
    · exact h2' x hx
  · rcases h3' with h3' | h3'
    · rcases h3 with h3 | h3
      · left; omega
      · right; rw [h3']; exact List.mem_append.mpr (Or.inl h3)
    · right; exact List.mem_append.mpr (Or.inr h3')

theorem foldl_max_isRaisedMax (l : List Int) (a : Int) : IsRaisedMax l a (l.foldl max a) := by
  induction l generalizing a with
  | nil => exact ⟨le_refl _, by simp, Or.inl rfl⟩
  | cons x xs ih =>
    have hx : IsRaisedMax [x] a (max a x) := by
      refine ⟨le_max_left _ _, ?_, ?_⟩
      · intro y hy
        simp at hy
        subst hy
        exact le_max_right _ _
      · rcases le_total a x with h | h
        · right; simp [max_eq_right h]
        · left; exact max_eq_left h
    simpa using hx.append (ih (max a x))

theorem channelsLoop_isRaisedMax (channels : List KisKeyframeChannel) (time : Int) :
    IsRaisedMax (channelTimes channels) time (channelsLoop channels time) := by
  induction channels generalizing time with
  | nil => exact ⟨le_refl _, by simp [channelTimes], Or.inl rfl⟩
  | cons c cs ih =>
    cases hk : c.lastKeyframe with
    | none => simpa [channelsLoop, channelTimes, hk] using ih time
    | some k =>
      have hx : IsRaisedMax [k.time] time (max time k.time) := by
        simpa using foldl_max_isRaisedMax [k.time] time
      simpa [channelsLoop, channelTimes, hk] using hx.append (ih (max time k.time))

theorem IsRaisedMax.raise {l : List Int} {t r : Int} (ht : 0 ≤ t) (h : IsRaisedMax l 0 r) :
    IsRaisedMax l t (max t r) := by
  obtain ⟨h1, h2, h3⟩ := h
  refine ⟨le_max_left _ _, fun x hx => le_trans (h2 x hx) (le_max_right _ _), ?_⟩
  rcases le_total r t with h | h
  · left; exact max_eq_left h
  · rcases h3 with h3 | h3
    · left; omega
    · right; rw [max_eq_right h]; exact h3

mutual
theorem findLastKeyframeTimeRecursive_isRaisedMax :
    ∀ node : KisNode,
      IsRaisedMax (subtreeLastKeyframeTimes node) 0 (findLastKeyframeTimeRecursive node)
  | .mk _ channels children => by
    have h₁ := channelsLoop_isRaisedMax channels 0
    have h₂ := siblingsLoop_isRaisedMax children (channelsLoop channels 0) h₁.1
    simpa [findLastKeyframeTimeRecursive, subtreeLastKeyframeTimes] using h₁.append h₂
theorem siblingsLoop_isRaisedMax :
    ∀ (nodes : List KisNode) (time : Int), 0 ≤ time →
      IsRaisedMax (forestLastKeyframeTimes nodes) time (siblingsLoop nodes time)
  | [], time, _ => by
    simpa [siblingsLoop, forestLastKeyframeTimes] using foldl_max_isRaisedMax [] time
  | child :: rest, time, ht => by
    have h₁ := (findLastKeyframeTimeRecursive_isRaisedMax child).raise ht
    have h₂ := siblingsLoop_isRaisedMax rest (max time (findLastKeyframeTimeRecursive child))
      (le_trans ht (le_max_left _ _))
    simpa [siblingsLoop, forestLastKeyframeTimes] using h₁.append h₂
end

theorem findLastKeyframeTimeRecursive_nonneg (node : KisNode) :
    0 ≤ findLastKeyframeTimeRecursive node :=
  (findLastKeyframeTimeRecursive_isRaisedMax node).1

/-- The specification value really is the maximum of the last-keyframe times
when there is one: it is one of them and bounds them all. -/
theorem latestKeyframeTime_isMax (root : KisNode) (h : subtreeLastKeyframeTimes root ≠ []) :
    latestKeyframeTime root ∈ subtreeLastKeyframeTimes root ∧
      ∀ t ∈ subtreeLastKeyframeTimes root, t ≤ latestKeyframeTime root := by
  unfold latestKeyframeTime
  cases hl : subtreeLastKeyframeTimes root with
  | nil => exact absurd hl h
  | cons t ts =>
    obtain ⟨h1, h2, h3⟩ := foldl_max_isRaisedMax ts t
    refine ⟨?_, ?_⟩
    · rcases h3 with h3 | h3
      · simp [h3]
      · simp [h3]
    · intro x hx
      rcases List.mem_cons.mp hx with hx | hx
      · simpa [hx] using h1
      · exact h2 x hx

theorem findLastKeyframeTimeRecursive_eq_max (root : KisNode) :
    findLastKeyframeTimeRecursive root = max 0 (latestKeyframeTime root) := by
  obtain ⟨h1, h2, h3⟩ := findLastKeyframeTimeRecursive_isRaisedMax root
  by_cases hl : subtreeLastKeyframeTimes root = []
  · have h0 : latestKeyframeTime root = 0 := by simp [latestKeyframeTime, hl]
    rw [h0]
    rcases h3 with h3 | h3
    · simp [h3]
    · rw [hl] at h3; simp at h3
  · obtain ⟨hm, hb⟩ := latestKeyframeTime_isMax root hl
    apply le_antisymm
    · rcases h3 with h3 | h3
      · rw [h3]; exact le_max_left _ _
      · exact le_trans (hb _ h3) (le_max_right _ _)
    · exact max_le h1 (h2 _ hm)

open KisImageAnimationInterface

theorem lastRequested_eq_getLast (current : Int) (r : SwitchRequest) (rest : List SwitchRequest) :
    lastRequested current (r :: rest) = ((r :: rest).getLast (List.cons_ne_nil r rest)).frameId := by
  induction rest generalizing current r with
  | nil => simp [lastRequested]
  | cons r' rest' ih =>
    rw [lastRequested, ih r.frameId r', List.getLast_cons (List.cons_ne_nil r' rest')]

/-- A call that finds a resettable token resets it and submits nothing: only
`sigUiTimeChanged` is emitted (nothing at all when the time is the current UI
time). -/
theorem switchCurrentTimeAsync_coalesced (c : CalcRange) (root : KisNode) (d : Private)
    (token : SharedToken) (frameId : Int) (useUndo : Bool)
    (htok : d.switchToken = some token) (hres : token.resettable = true) :
    switchCurrentTimeAsync c root d frameId useUndo =
      if d.m_currentUITime = frameId then (d, [])
      else
        ({ d with
            switchToken := some
              { token with
                time := frameId
                needsRegeneration :=
                  !(c root d.m_currentUITime (KisTimeRange.infinite 0) true).contains frameId }
            m_currentUITime := frameId },
          [Effect.sigUiTimeChanged frameId]) := by
  unfold switchCurrentTimeAsync
  by_cases h : d.m_currentUITime = frameId
  · simp [h, currentUITime, Private.currentUITime]
  · simp [h, currentUITime, Private.currentUITime, htok,
      SharedToken.tryResetDestinationTime, hres, Private.setCurrentUITime]

/-- A call for a new time that finds no resettable token creates a token and
submits the switch stroke, then the regeneration stroke if it is needed. -/
theorem switchCurrentTimeAsync_fresh (c : CalcRange) (root : KisNode) (d : Private)
    (frameId : Int) (useUndo : Bool)
    (hfresh : noResettableToken d = true) (hne : d.m_currentUITime ≠ frameId) :
    switchCurrentTimeAsync c root d frameId useUndo =
      ({ d with
          switchToken := some
            ⟨frameId, !(c root d.m_currentUITime (KisTimeRange.infinite 0) true).contains frameId,
              true⟩
          m_currentUITime := frameId },
        [Effect.startStroke (.switchTime frameId
            (!(c root d.m_currentUITime (KisTimeRange.infinite 0) true).contains frameId) useUndo),
          Effect.endStroke (.switchTime frameId
            (!(c root d.m_currentUITime (KisTimeRange.infinite 0) true).contains frameId) useUndo)]
        ++ (if (!(c root d.m_currentUITime (KisTimeRange.infinite 0) true).contains frameId) = true
            then [Effect.startStroke .regenerateFrame, Effect.endStroke .regenerateFrame]
            else [])
        ++ [Effect.sigUiTimeChanged frameId]) := by
  unfold switchCurrentTimeAsync
  unfold noResettableToken at hfresh
  cases htok : d.switchToken with
  | none =>
    simp [hne, currentUITime, Private.currentUITime, htok, Private.setCurrentUITime]
  | some token =>
    rw [htok] at hfresh
    have hres : token.resettable = false := by simpa using hfresh
    simp [hne, currentUITime, Private.currentUITime, htok, Private.setCurrentUITime,
      SharedToken.tryResetDestinationTime, hres]

/-- While a resettable token whose destination is the UI time is pending, any
further sequence of requests submits no stroke, keeps such a token, and ends
with the UI time at the last requested time. -/
theorem runSwitches_coalesced (c : CalcRange) :
    ∀ (requests : List SwitchRequest) (d : Private) (token : SharedToken),
      d.switchToken = some token → token.resettable = true → token.time = d.m_currentUITime →
      (runSwitches c d requests).2.countP Effect.isSwitchStroke = 0
      ∧ (runSwitches c d requests).2.countP Effect.isRegenerateStroke = 0
      ∧ (∃ token', (runSwitches c d requests).1.switchToken = some token'
          ∧ token'.resettable = true
          ∧ token'.time = (runSwitches c d requests).1.m_currentUITime)
      ∧ (runSwitches c d requests).1.m_currentUITime = lastRequested d.m_currentUITime requests
  | [], d, token, htok, hres, htime => by
    simp [runSwitches, htok, hres, htime, lastRequested]
  | r :: rest, d, token, htok, hres, htime => by
    have hstep := switchCurrentTimeAsync_coalesced c r.root d token r.frameId r.useUndo htok hres
    by_cases h : d.m_currentUITime = r.frameId
    · rw [if_pos h] at hstep
      have ih := runSwitches_coalesced c rest d token htok hres htime
      simp only [runSwitches, hstep, List.nil_append]
      refine ⟨ih.1, ih.2.1, ih.2.2.1, ?_⟩
      rw [ih.2.2.2, lastRequested, h]
    · rw [if_neg h] at hstep
      have ih := runSwitches_coalesced c rest
        { d with
            switchToken := some
              { token with
                time := r.frameId
                needsRegeneration :=
                  !(c r.root d.m_currentUITime (KisTimeRange.infinite 0) true).contains r.frameId }
            m_currentUITime := r.frameId }
        { token with
          time := r.frameId
          needsRegeneration :=
            !(c r.root d.m_currentUITime (KisTimeRange.infinite 0) true).contains r.frameId }
        rfl hres rfl
      simp only [runSwitches, hstep]
      refine ⟨?_, ?_, ih.2.2.1, ?_⟩
      · simpa [List.countP_cons, Effect.isSwitchStroke] using ih.1
      · simpa [List.countP_cons, Effect.isRegenerateStroke] using ih.2.1
      · rw [ih.2.2.2, lastRequested]


theorem switchCurrentTimeAsync_externalFrameActive (c : CalcRange) (root : KisNode)
    (d : Private) (frameId : Int) (useUndo : Bool) :
    (switchCurrentTimeAsync c root d frameId useUndo).1.externalFrameActive =
      d.externalFrameActive := by
  by_cases h : d.m_currentUITime = frameId
  · simp [switchCurrentTimeAsync, currentUITime, Private.currentUITime, h]
  · by_cases hfresh : noResettableToken d = true
    · rw [switchCurrentTimeAsync_fresh c root d frameId useUndo hfresh h]
    · obtain ⟨token, htok, hres⟩ :
          ∃ token, d.switchToken = some token ∧ token.resettable = true := by
        unfold noResettableToken at hfresh
        cases htok : d.switchToken with
        | none => simp [htok] at hfresh
        | some token => exact ⟨token, rfl, by simpa [htok] using hfresh⟩
      rw [switchCurrentTimeAsync_coalesced c root d token frameId useUndo htok hres, if_neg h]

theorem notifyNodeChanged_of_guard (c : CalcRange) (d : Private) (node : KisNode) (rect : QRect)
    (recursive : Bool)
    (h : d.externalFrameActive = true ∨ d.frameInvalidationBlocked = true
      ∨ node.isSelectionMask = true) :
    notifyNodeChanged c d node rect recursive = (d, []) := by
  unfold notifyNodeChanged externalFrameActive
  rcases h with h | h | h
  · simp [h]
  · simp [h]
  · simp [h]

theorem notifyNodeChanged_state_of_no_guard (c : CalcRange) (d : Private) (node : KisNode)
    (rect : QRect) (recursive : Bool) (hext : d.externalFrameActive = false)
    (hblock : d.frameInvalidationBlocked = false) (hmask : node.isSelectionMask = false) :
    (notifyNodeChanged c d node rect recursive).1 = { d with cachedLastFrameValue := -1 } := by
  unfold notifyNodeChanged externalFrameActive
  cases recursive with
  | true => simp [hext, hblock, hmask, invalidateFrames]
  | false =>
    cases hch : node.getKeyframeChannel contentChannelId with
    | none => simp [hext, hblock, hmask, invalidateFrames, hch]
    | some channel => simp [hext, hblock, hmask, invalidateFrames, hch]

/-- A call other than `restoreCurrentTime` (and `setDefaultProjectionColor`,
which contains one) leaves a raised `externalFrameActive` flag raised. -/
theorem apply_keeps_externalFrameActive (c : CalcRange) (d : Private) (op : Op)
    (hop : op.restores = false) (h : d.externalFrameActive = true) :
    (op.apply c d).1.externalFrameActive = true := by
  cases op with
  | restoreCurrentTime savedValue => simp [Op.restores] at hop
  | setDefaultProjectionColor => simp [Op.restores] at hop
  | switchCurrentTimeAsync root frameId useUndo =>
    simpa [Op.apply, switchCurrentTimeAsync_externalFrameActive] using h
  | requestTimeSwitchNonGUI root time useUndo =>
    simpa [Op.apply, requestTimeSwitchNonGUI, switchCurrentTimeAsync_externalFrameActive] using h
  | requestTimeSwitchWithUndo root time =>
    by_cases ht : currentUITime d = time
    · simpa [Op.apply, requestTimeSwitchWithUndo, ht] using h
    · simpa [Op.apply, requestTimeSwitchWithUndo, ht, requestTimeSwitchNonGUI,
        switchCurrentTimeAsync_externalFrameActive] using h
  | notifyNodeChanged node rect recursive =>
    rw [Op.apply, notifyNodeChanged_of_guard c d node rect recursive (Or.inl h)]
    exact h
  | totalLength root =>
    by_cases hc : d.cachedLastFrameValue < 0
    · simpa [Op.apply, totalLength, hc] using h
    · simpa [Op.apply, totalLength, hc] using h
  | setFullClipRange range => simpa [Op.apply, setFullClipRange] using h
  | setPlaybackRange range => simpa [Op.apply, setPlaybackRange] using h
  | setFramerate fps => simpa [Op.apply, setFramerate] using h
  | explicitlySetCurrentTime frameId =>
    simpa [Op.apply, explicitlySetCurrentTime, Private.setCurrentTime] using h
  | requestFrameRegeneration frameId dirtyRegion =>
    simpa [Op.apply, requestFrameRegeneration] using h
  | saveAndResetCurrentTime frameId =>
    simp [Op.apply, saveAndResetCurrentTime, Private.setCurrentTime]
  | notifyFrameReady => simpa [Op.apply, notifyFrameReady] using h
  | notifyFrameCancelled => simpa [Op.apply, notifyFrameCancelled] using h
  | invalidateFrames range rect => simpa [Op.apply, invalidateFrames] using h
  | blockFrameInvalidation value => simpa [Op.apply, blockFrameInvalidation] using h

theorem runOps_keeps_externalFrameActive (c : CalcRange) :
    ∀ (ops : List Op) (d : Private), (∀ op ∈ ops, op.restores = false) →
      d.externalFrameActive = true → (runOps c d ops).1.externalFrameActive = true
  | [], d, _, h => by simpa [runOps] using h
  | op :: rest, d, hops, h => by
    have h₁ := apply_keeps_externalFrameActive c d op (hops op (List.mem_cons_self _ _)) h
    have h₂ := runOps_keeps_externalFrameActive c rest (op.apply c d).1
      (fun o ho => hops o (List.mem_cons_of_mem _ ho)) h₁
    simpa [runOps] using h₂

theorem switchCurrentTimeAsync_framerate (c : CalcRange) (root : KisNode)
    (d : Private) (frameId : Int) (useUndo : Bool) :
    (switchCurrentTimeAsync c root d frameId useUndo).1.framerate = d.framerate := by
  by_cases h : d.m_currentUITime = frameId
  · simp [switchCurrentTimeAsync, currentUITime, Private.currentUITime, h]
  · by_cases hfresh : noResettableToken d = true
    · rw [switchCurrentTimeAsync_fresh c root d frameId useUndo hfresh h]
    · obtain ⟨token, htok, hres⟩ :
          ∃ token, d.switchToken = some token ∧ token.resettable = true := by
        unfold noResettableToken at hfresh
        cases htok : d.switchToken with
        | none => simp [htok] at hfresh
        | some token => exact ⟨token, rfl, by simpa [htok] using hfresh⟩
      rw [switchCurrentTimeAsync_coalesced c root d token frameId useUndo htok hres, if_neg h]

/-- Only `setFramerate` changes the frame rate. -/
theorem apply_framerate (c : CalcRange) (d : Private) (op : Op) :
    (op.apply c d).1.framerate = op.framerateAfter d.framerate := by
  cases op with
  | setFramerate fps => simp [Op.apply, Op.framerateAfter, setFramerate]
  | switchCurrentTimeAsync root frameId useUndo =>
    simp [Op.apply, Op.framerateAfter, switchCurrentTimeAsync_framerate]
  | requestTimeSwitchNonGUI root time useUndo =>
    simp [Op.apply, Op.framerateAfter, requestTimeSwitchNonGUI, switchCurrentTimeAsync_framerate]
  | requestTimeSwitchWithUndo root time =>
    by_cases ht : currentUITime d = time
    · simp [Op.apply, Op.framerateAfter, requestTimeSwitchWithUndo, ht]
    · simp [Op.apply, Op.framerateAfter, requestTimeSwitchWithUndo, ht, requestTimeSwitchNonGUI,
        switchCurrentTimeAsync_framerate]
  | notifyNodeChanged node rect recursive =>
    by_cases hg : d.externalFrameActive = true ∨ d.frameInvalidationBlocked = true
        ∨ node.isSelectionMask = true
    · rw [Op.apply, notifyNodeChanged_of_guard c d node rect recursive hg]
      rfl
    · have hg' : d.externalFrameActive = false ∧ d.frameInvalidationBlocked = false
          ∧ node.isSelectionMask = false := by
        simpa [not_or] using hg
      rw [Op.apply, notifyNodeChanged_state_of_no_guard c d node rect recursive hg'.1 hg'.2.1
        hg'.2.2]
      rfl
  | totalLength root =>
    by_cases hc : d.cachedLastFrameValue < 0
    · simp [Op.apply, Op.framerateAfter, totalLength, hc]
    · simp [Op.apply, Op.framerateAfter, totalLength, hc]
  | setFullClipRange range => simp [Op.apply, Op.framerateAfter, setFullClipRange]
  | setPlaybackRange range => simp [Op.apply, Op.framerateAfter, setPlaybackRange]
  | explicitlySetCurrentTime frameId =>
    simp [Op.apply, Op.framerateAfter, explicitlySetCurrentTime, Private.setCurrentTime]
  | requestFrameRegeneration frameId dirtyRegion =>
    simp [Op.apply, Op.framerateAfter, requestFrameRegeneration]
  | saveAndResetCurrentTime frameId =>
    simp [Op.apply, Op.framerateAfter, saveAndResetCurrentTime, Private.setCurrentTime]
  | restoreCurrentTime savedValue =>
    simp [Op.apply, Op.framerateAfter, restoreCurrentTime, Private.setCurrentTime]
  | setDefaultProjectionColor =>
    simp [Op.apply, Op.framerateAfter, setDefaultProjectionColor, restoreCurrentTime,
      saveAndResetCurrentTime, Private.setCurrentTime]
  | notifyFrameReady => simp [Op.apply, Op.framerateAfter, notifyFrameReady]
  | notifyFrameCancelled => simp [Op.apply, Op.framerateAfter, notifyFrameCancelled]
  | invalidateFrames range rect => simp [Op.apply, Op.framerateAfter, invalidateFrames]
  | blockFrameInvalidation value =>
    simp [Op.apply, Op.framerateAfter, blockFrameInvalidation]

theorem runOps_framerate (c : CalcRange) :
    ∀ (ops : List Op) (d : Private),
      (runOps c d ops).1.framerate = ops.foldl Op.framerateAfter d.framerate
  | [], d => by simp [runOps]
  | op :: rest, d => by
    have h := runOps_framerate c rest (op.apply c d).1
    rw [apply_framerate] at h
    simpa [runOps] using h

theorem foldl_framerateAfter_pos :
    ∀ (ops : List Op) (current : Int), 0 < current →
      (∀ op ∈ ops, op.keepsFrameratePositive = true) → 0 < ops.foldl Op.framerateAfter current
  | [], current, h, _ => by simpa using h
  | op :: rest, current, h, hops => by
    have hstep : 0 < op.framerateAfter current := by
      have hop := hops op (List.mem_cons_self _ _)
      cases op <;> simp_all [Op.framerateAfter, Op.keepsFrameratePositive]
    simpa using foldl_framerateAfter_pos rest _ hstep
      (fun o ho => hops o (List.mem_cons_of_mem _ ho))

theorem findLastKeyframeTimeRecursive_of_no_keyframe (root : KisNode)
    (h : subtreeLastKeyframeTimes root = []) : findLastKeyframeTimeRecursive root = 0 := by
  rw [findLastKeyframeTimeRecursive_eq_max]
  simp [latestKeyframeTime, h]

/-! ## Total length -/

/-- C1 fails as stated when the sum is not representable: after
`switchCurrentTimeAsync(2147483647)` on a freshly constructed interface the UI
time is 2147483647, so `max(K, fullClipRange.end, currentUITime) + 1` is
2147483648, which no `int` holds; the 32-bit sum `totalLength()` returns is
-2147483648. -/
theorem totalLength_overflow_counterexample :
    currentUITime
        (switchCurrentTimeAsync keepRange emptyNode construct 2147483647 false).1 = 2147483647
    ∧ (switchCurrentTimeAsync keepRange emptyNode construct 2147483647
        false).1.cachedLastFrameValue = -1
    ∧ max (max (findLastKeyframeTimeRecursive emptyNode)
        (switchCurrentTimeAsync keepRange emptyNode construct 2147483647
          false).1.fullClipRange.end_)
        (currentUITime
          (switchCurrentTimeAsync keepRange emptyNode construct 2147483647 false).1) + 1
        = 2147483648
    ∧ (totalLength (switchCurrentTimeAsync keepRange emptyNode construct 2147483647 false).1
        emptyNode).1 = -2147483648
    ∧ ¬ isInt 2147483648 := by
  decide

/-- C1 (amended): `totalLength()` returns `max(K, fullClipRange.end, currentUITime) + 1`
computed in `int` arithmetic (so exactly that number whenever it is
representable), where `K` is the cached last-keyframe value if it is
non-negative on entry and `findLastKeyframeTimeRecursive(root)` otherwise; `K`
is the cache afterwards and nothing else changes; when the cache is
non-negative on entry the outcome is the same for every tree, so the tree is
not consulted. -/
theorem totalLength_returns (d : Private) (root : KisNode) :
    (totalLength d root).1 =
        wrapInt (max (max (if d.cachedLastFrameValue < 0 then findLastKeyframeTimeRecursive root
          else d.cachedLastFrameValue) d.fullClipRange.end_) d.m_currentUITime + 1)
    ∧ (isInt (max (max (if d.cachedLastFrameValue < 0 then findLastKeyframeTimeRecursive root
          else d.cachedLastFrameValue) d.fullClipRange.end_) d.m_currentUITime + 1) →
        (totalLength d root).1 =
          max (max (if d.cachedLastFrameValue < 0 then findLastKeyframeTimeRecursive root
            else d.cachedLastFrameValue) d.fullClipRange.end_) d.m_currentUITime + 1)
    ∧ (totalLength d root).2 =
        { d with cachedLastFrameValue :=
            if d.cachedLastFrameValue < 0 then findLastKeyframeTimeRecursive root
            else d.cachedLastFrameValue }
    ∧ (0 ≤ d.cachedLastFrameValue → ∀ other : KisNode, totalLength d other = totalLength d root) := by
  have hval : (totalLength d root).1 =
      wrapInt (max (max (if d.cachedLastFrameValue < 0 then findLastKeyframeTimeRecursive root
        else d.cachedLastFrameValue) d.fullClipRange.end_) d.m_currentUITime + 1) := by
    unfold totalLength
    by_cases h : d.cachedLastFrameValue < 0
    · simp [h, Private.currentUITime]
    · simp [h, Private.currentUITime]
  refine ⟨hval, ?_, ?_, ?_⟩
  · intro h
    rw [hval, wrapInt_of_isInt h]
  · unfold totalLength
    by_cases h : d.cachedLastFrameValue < 0
    · simp [h]
    · simp [h]
  · intro h other
    have h' : ¬ d.cachedLastFrameValue < 0 := by omega
    simp [totalLength, h']

/-- Witness of C1 on a freshly constructed interface over a tree whose latest
keyframe is at 150: the length is 151 and the cache holds 150 afterwards. -/
theorem totalLength_returns_witness :
    (totalLength construct (leafWithKey 150)).1 = 151 ∧
      (totalLength construct (leafWithKey 150)).2.cachedLastFrameValue = 150 := by
  have h := totalLength_returns construct (leafWithKey 150)
  have hf : findLastKeyframeTimeRecursive (leafWithKey 150) = 150 := by decide
  refine ⟨?_, ?_⟩
  · rw [h.1]; decide
  · rw [h.2.2.1]; decide

/-- C10: when `lastKey + 1` does not overflow (exact integer arithmetic),
`totalLength()` is at least `fullClipRange.end + 1`, at least
`currentUITime() + 1`, and at least 1 plus the last keyframe time it used (the
cached value, or the recomputed one when the cache was unknown). -/
theorem totalLength_lower_bounds (d : Private) (root : KisNode)
    (h : isInt (max (max (if d.cachedLastFrameValue < 0 then findLastKeyframeTimeRecursive root
      else d.cachedLastFrameValue) d.fullClipRange.end_) d.m_currentUITime + 1)) :
    d.fullClipRange.end_ + 1 ≤ (totalLength d root).1
    ∧ currentUITime d + 1 ≤ (totalLength d root).1
    ∧ 1 + (totalLength d root).2.cachedLastFrameValue ≤ (totalLength d root).1
    ∧ (totalLength d root).2.cachedLastFrameValue =
        (if d.cachedLastFrameValue < 0 then findLastKeyframeTimeRecursive root
          else d.cachedLastFrameValue) := by
  have hcache : (totalLength d root).2.cachedLastFrameValue =
      (if d.cachedLastFrameValue < 0 then findLastKeyframeTimeRecursive root
        else d.cachedLastFrameValue) := by
    unfold totalLength
    by_cases hc : d.cachedLastFrameValue < 0
    · simp [hc]
    · simp [hc]
  have hval : (totalLength d root).1 =
      max (max (if d.cachedLastFrameValue < 0 then findLastKeyframeTimeRecursive root
        else d.cachedLastFrameValue) d.fullClipRange.end_) d.m_currentUITime + 1 := by
    rw [← wrapInt_of_isInt h]
    unfold totalLength
    by_cases hc : d.cachedLastFrameValue < 0
    · simp [hc, Private.currentUITime]
    · simp [hc, Private.currentUITime]
  rw [hcache, hval]
  simp only [currentUITime, Private.currentUITime]
  refine ⟨?_, ?_, ?_, trivial⟩
  · have := le_max_right (if d.cachedLastFrameValue < 0 then findLastKeyframeTimeRecursive root
      else d.cachedLastFrameValue) d.fullClipRange.end_
    have := le_max_left (max (if d.cachedLastFrameValue < 0 then findLastKeyframeTimeRecursive root
      else d.cachedLastFrameValue) d.fullClipRange.end_) d.m_currentUITime
    omega
  · have := le_max_right (max (if d.cachedLastFrameValue < 0 then findLastKeyframeTimeRecursive root
      else d.cachedLastFrameValue) d.fullClipRange.end_) d.m_currentUITime
    omega
  · have := le_max_left (if d.cachedLastFrameValue < 0 then findLastKeyframeTimeRecursive root
      else d.cachedLastFrameValue) d.fullClipRange.end_
    have := le_max_left (max (if d.cachedLastFrameValue < 0 then findLastKeyframeTimeRecursive root
      else d.cachedLastFrameValue) d.fullClipRange.end_) d.m_currentUITime
    omega

/-- Witness of C10 on a freshly constructed interface over a tree whose latest
keyframe is at 150. -/
theorem totalLength_lower_bounds_witness :
    isInt (max (max (if construct.cachedLastFrameValue < 0 then
        findLastKeyframeTimeRecursive (leafWithKey 150)
        else construct.cachedLastFrameValue) construct.fullClipRange.end_)
        construct.m_currentUITime + 1)
    ∧ construct.fullClipRange.end_ + 1 ≤ (totalLength construct (leafWithKey 150)).1
    ∧ currentUITime construct + 1 ≤ (totalLength construct (leafWithKey 150)).1
    ∧ 1 + (totalLength construct (leafWithKey 150)).2.cachedLastFrameValue ≤
        (totalLength construct (leafWithKey 150)).1 :=
  have h := totalLength_lower_bounds construct (leafWithKey 150) (by decide)
  ⟨by decide, h.1, h.2.1, h.2.2.1⟩

/-! ## The keyframe aggregator -/

/-- C2 fails as stated: a tree whose only last keyframe is at time -5 has
maximum last-keyframe time -5, but the aggregator returns 0. -/
theorem findLastKeyframeTimeRecursive_negative_counterexample :
    subtreeLastKeyframeTimes (leafWithKey (-5)) = [-5]
    ∧ latestKeyframeTime (leafWithKey (-5)) = -5
    ∧ findLastKeyframeTimeRecursive (leafWithKey (-5)) = 0
    ∧ findLastKeyframeTimeRecursive (leafWithKey (-5)) ≠ latestKeyframeTime (leafWithKey (-5)) := by
  decide

/-- C2 (amended): `findLastKeyframeTimeRecursive(root)` is the larger of 0 and
the maximum of the last-keyframe times of all channels of all nodes of the
subtree; it is that maximum whenever some last keyframe has a non-negative
time, and it is 0 when no channel of the subtree has a keyframe. -/
theorem findLastKeyframeTimeRecursive_spec (root : KisNode) :
    findLastKeyframeTimeRecursive root = max 0 (latestKeyframeTime root)
    ∧ ((∃ t ∈ subtreeLastKeyframeTimes root, 0 ≤ t) →
        findLastKeyframeTimeRecursive root = latestKeyframeTime root
        ∧ latestKeyframeTime root ∈ subtreeLastKeyframeTimes root
        ∧ ∀ t ∈ subtreeLastKeyframeTimes root, t ≤ latestKeyframeTime root)
    ∧ (subtreeLastKeyframeTimes root = [] → findLastKeyframeTimeRecursive root = 0) := by
  have heq := findLastKeyframeTimeRecursive_eq_max root
  refine ⟨heq, ?_, ?_⟩
  · rintro ⟨t, ht, h0⟩
    have hne : subtreeLastKeyframeTimes root ≠ [] := by
      intro h; rw [h] at ht; simp at ht
    obtain ⟨hm, hb⟩ := latestKeyframeTime_isMax root hne
    refine ⟨?_, hm, hb⟩
    rw [heq]
    exact max_eq_right (le_trans h0 (hb t ht))
  · intro h
    rw [heq]
    simp [latestKeyframeTime, h]

/-- Witness of C2 (amended) on a root with two leaves, last keyframes at 150
and 7: the aggregator returns the maximum, 150. -/
theorem findLastKeyframeTimeRecursive_spec_witness :
    (∃ t ∈ subtreeLastKeyframeTimes (.mk false [] [leafWithKey 150, leafWithKey 7]), 0 ≤ t)
    ∧ findLastKeyframeTimeRecursive (.mk false [] [leafWithKey 150, leafWithKey 7]) = 150 := by
  have hex : ∃ t ∈ subtreeLastKeyframeTimes (.mk false [] [leafWithKey 150, leafWithKey 7]),
      0 ≤ t := ⟨150, by decide, by decide⟩
  have h := (findLastKeyframeTimeRecursive_spec
    (.mk false [] [leafWithKey 150, leafWithKey 7])).2.1 hex
  refine ⟨hex, ?_⟩
  rw [h.1]
  decide

/-! ## The switch coordinator -/

/-- C3 (coalescing): a sequence of `switchCurrentTimeAsync` calls whose first
call creates the switch token (no resettable token before it, and a time other
than the UI time) and whose later calls find that token resettable submits
exactly one switch-time stroke and at most one regenerate-frame stroke; at the
end the token is still resettable and its destination time, like
`currentUITime`, is the time of the last request. -/
theorem switchCurrentTimeAsync_coalescing (c : CalcRange) (d : Private)
    (first : SwitchRequest) (rest : List SwitchRequest)
    (hfresh : noResettableToken d = true) (hne : first.frameId ≠ currentUITime d) :
    (runSwitches c d (first :: rest)).2.countP Effect.isSwitchStroke = 1
    ∧ (runSwitches c d (first :: rest)).2.countP Effect.isRegenerateStroke ≤ 1
    ∧ (∃ token, (runSwitches c d (first :: rest)).1.switchToken = some token
        ∧ token.resettable = true
        ∧ token.time = ((first :: rest).getLast (List.cons_ne_nil first rest)).frameId)
    ∧ currentUITime (runSwitches c d (first :: rest)).1 =
        ((first :: rest).getLast (List.cons_ne_nil first rest)).frameId := by
  have hne' : d.m_currentUITime ≠ first.frameId := fun h => hne h.symm
  have hstep := switchCurrentTimeAsync_fresh c first.root d first.frameId first.useUndo hfresh hne'
  have ih := runSwitches_coalesced c rest
    { d with
        switchToken := some
          ⟨first.frameId,
            !(c first.root d.m_currentUITime (KisTimeRange.infinite 0) true).contains first.frameId,
            true⟩
        m_currentUITime := first.frameId }
    ⟨first.frameId,
      !(c first.root d.m_currentUITime (KisTimeRange.infinite 0) true).contains first.frameId,
      true⟩ rfl rfl rfl
  obtain ⟨ih1, ih2, ⟨token, ht1, ht2, ht3⟩, ih4⟩ := ih
  have hlast := lastRequested_eq_getLast d.m_currentUITime first rest
  rw [lastRequested] at hlast
  simp only [runSwitches, hstep, currentUITime, Private.currentUITime]
  refine ⟨?_, ?_, ⟨token, ht1, ht2, ?_⟩, ?_⟩
  · rw [List.countP_append, ih1]
    cases (c first.root d.m_currentUITime (KisTimeRange.infinite 0) true).contains first.frameId <;>
      simp [List.countP_cons, Effect.isSwitchStroke]
  · rw [List.countP_append, ih2]
    cases (c first.root d.m_currentUITime (KisTimeRange.infinite 0) true).contains first.frameId <;>
      simp [List.countP_cons, Effect.isRegenerateStroke]
  · rw [ht3, ih4]; exact hlast
  · rw [ih4]; exact hlast

/-- Witness of C3: from a freshly constructed interface, requests for the
times 10, 50 and 30 submit one switch stroke and end with the UI time at 30. -/
theorem switchCurrentTimeAsync_coalescing_witness :
    noResettableToken construct = true
    ∧ (10 : Int) ≠ currentUITime construct
    ∧ (runSwitches singleFrame construct
        [⟨10, true, emptyNode⟩, ⟨50, false, emptyNode⟩, ⟨30, false, emptyNode⟩]).2.countP
          Effect.isSwitchStroke = 1
    ∧ currentUITime (runSwitches singleFrame construct
        [⟨10, true, emptyNode⟩, ⟨50, false, emptyNode⟩, ⟨30, false, emptyNode⟩]).1 = 30 :=
  have h := switchCurrentTimeAsync_coalescing singleFrame construct ⟨10, true, emptyNode⟩
    [⟨50, false, emptyNode⟩, ⟨30, false, emptyNode⟩] (by decide) (by decide)
  ⟨by decide, by decide, h.1, h.2.2.2⟩

/-- C4 fails as stated: from a freshly constructed interface (UI time 0), the
request for time 10 followed by the request for time 50 emits
`sigUiTimeChanged(10)` before `sigUiTimeChanged(50)`. -/
theorem switch_10_then_50_emits_10 :
    (runSwitches keepRange construct [⟨10, false, emptyNode⟩, ⟨50, false, emptyNode⟩]).2 =
      [Effect.startStroke (.switchTime 10 false false),
        Effect.endStroke (.switchTime 10 false false),
        Effect.sigUiTimeChanged 10,
        Effect.sigUiTimeChanged 50]
    ∧ Effect.sigUiTimeChanged 10 ∈
        (runSwitches keepRange construct [⟨10, false, emptyNode⟩, ⟨50, false, emptyNode⟩]).2 := by
  decide

/-- C4 (amended): from a start state whose UI time is not 10, a request for
time 10 directly followed (token still resettable) by a request for time 50
submits at most one switch stroke (exactly one when no resettable token was
pending before, none when the two requests were merged into a pending one), the
token left behind has destination 50, the UI time is 50, and the two requests
emit `sigUiTimeChanged(10)` and then `sigUiTimeChanged(50)`. -/
theorem switch_10_then_50 (c : CalcRange) (d : Private) (root₁ root₂ : KisNode)
    (undo₁ undo₂ : Bool) (h10 : currentUITime d ≠ 10) :
    (runSwitches c d [⟨10, undo₁, root₁⟩, ⟨50, undo₂, root₂⟩]).2.countP Effect.isSwitchStroke =
        (if noResettableToken d = true then 1 else 0)
    ∧ (∃ token, (runSwitches c d [⟨10, undo₁, root₁⟩, ⟨50, undo₂, root₂⟩]).1.switchToken =
          some token ∧ token.time = 50 ∧ token.resettable = true)
    ∧ currentUITime (runSwitches c d [⟨10, undo₁, root₁⟩, ⟨50, undo₂, root₂⟩]).1 = 50
    ∧ (runSwitches c d [⟨10, undo₁, root₁⟩, ⟨50, undo₂, root₂⟩]).2.filter Effect.isUiTimeChanged =
        [Effect.sigUiTimeChanged 10, Effect.sigUiTimeChanged 50] := by
  have h10' : d.m_currentUITime ≠ 10 := h10
  by_cases hfresh : noResettableToken d = true
  · have h₁ := switchCurrentTimeAsync_fresh c root₁ d 10 undo₁ hfresh h10'
    have h₂ := switchCurrentTimeAsync_coalesced c root₂
      { d with
          switchToken := some
            ⟨10, !(c root₁ d.m_currentUITime (KisTimeRange.infinite 0) true).contains 10, true⟩
          m_currentUITime := 10 }
      ⟨10, !(c root₁ d.m_currentUITime (KisTimeRange.infinite 0) true).contains 10, true⟩
      50 undo₂ rfl rfl
    rw [if_neg (show ¬ ((10 : Int) = 50) by decide)] at h₂
    simp only [runSwitches, h₁, h₂, currentUITime, Private.currentUITime, if_pos hfresh]
    cases (c root₁ d.m_currentUITime (KisTimeRange.infinite 0) true).contains 10 <;>
      simp [List.countP_cons, Effect.isSwitchStroke, List.filter, Effect.isUiTimeChanged]
  · obtain ⟨token, htok, hres⟩ : ∃ token, d.switchToken = some token ∧ token.resettable = true := by
      unfold noResettableToken at hfresh
      cases htok : d.switchToken with
      | none => simp [htok] at hfresh
      | some token => exact ⟨token, rfl, by simpa [htok] using hfresh⟩
    have h₁ := switchCurrentTimeAsync_coalesced c root₁ d token 10 undo₁ htok hres
    rw [if_neg h10'] at h₁
    have h₂ := switchCurrentTimeAsync_coalesced c root₂
      { d with
          switchToken := some
            { token with
              time := 10
              needsRegeneration :=
                !(c root₁ d.m_currentUITime (KisTimeRange.infinite 0) true).contains 10 }
          m_currentUITime := 10 }
      { token with
        time := 10
        needsRegeneration :=
          !(c root₁ d.m_currentUITime (KisTimeRange.infinite 0) true).contains 10 }
      50 undo₂ rfl hres
    rw [if_neg (show ¬ ((10 : Int) = 50) by decide)] at h₂
    simp only [runSwitches, h₁, h₂, currentUITime, Private.currentUITime, if_neg hfresh]
    simp [List.countP_cons, Effect.isSwitchStroke, List.filter, Effect.isUiTimeChanged, hres]

/-- Witness of C4 (amended) on a freshly constructed interface. -/
theorem switch_10_then_50_witness :
    currentUITime construct ≠ 10
    ∧ (runSwitches keepRange construct
        [⟨10, true, emptyNode⟩, ⟨50, true, emptyNode⟩]).2.filter Effect.isUiTimeChanged =
        [Effect.sigUiTimeChanged 10, Effect.sigUiTimeChanged 50] :=
  ⟨by decide,
    (switch_10_then_50 keepRange construct emptyNode emptyNode true true (by decide)).2.2.2⟩

/-- C5 (no-op on same time): when `currentUITime() == t`,
`requestTimeSwitchWithUndo(t)` and `switchCurrentTimeAsync(t, useUndo)` return
at once: no stroke, no signal (the effect list is empty), and the state is
unchanged in every field. -/
theorem switch_to_current_time_is_noop (c : CalcRange) (root : KisNode) (d : Private) (t : Int)
    (useUndo : Bool) (h : currentUITime d = t) :
    requestTimeSwitchWithUndo c root d t = (d, [])
    ∧ switchCurrentTimeAsync c root d t useUndo = (d, []) := by
  unfold requestTimeSwitchWithUndo switchCurrentTimeAsync
  simp [h]

/-- Witness of C5: a freshly constructed interface is at UI time 0. -/
theorem switch_to_current_time_is_noop_witness :
    currentUITime construct = 0
    ∧ requestTimeSwitchWithUndo singleFrame emptyNode construct 0 = (construct, [])
    ∧ switchCurrentTimeAsync singleFrame emptyNode construct 0 true = (construct, []) :=
  have h := switch_to_current_time_is_noop singleFrame emptyNode construct 0 true (by decide)
  ⟨by decide, h.1, h.2⟩

/-- C6 (range containment): for a destination `t` other than the UI time, if
the range computed by `calculateTimeRangeRecursive(root, currentUITime,
infinite(0), true)` contains `t`, the call submits no regenerate-frame stroke
and the token it creates or resets carries `needsRegeneration = false`; if the
range does not contain `t` and no resettable token exists, exactly one
regenerate-frame stroke is submitted. -/
theorem switchCurrentTimeAsync_range_containment (c : CalcRange) (root : KisNode) (d : Private)
    (t : Int) (useUndo : Bool) (hne : t ≠ currentUITime d) :
    ((c root (currentUITime d) (KisTimeRange.infinite 0) true).contains t = true →
      (switchCurrentTimeAsync c root d t useUndo).2.countP Effect.isRegenerateStroke = 0
      ∧ ∃ token, (switchCurrentTimeAsync c root d t useUndo).1.switchToken = some token
          ∧ token.needsRegeneration = false ∧ token.time = t)
    ∧ ((c root (currentUITime d) (KisTimeRange.infinite 0) true).contains t = false →
      noResettableToken d = true →
      (switchCurrentTimeAsync c root d t useUndo).2.countP Effect.isRegenerateStroke = 1) := by
  have hne' : d.m_currentUITime ≠ t := fun h => hne h.symm
  simp only [currentUITime, Private.currentUITime]
  constructor
  · intro hc
    by_cases hfresh : noResettableToken d = true
    · rw [switchCurrentTimeAsync_fresh c root d t useUndo hfresh hne']
      simp [hc, List.countP_cons, Effect.isRegenerateStroke]
    · obtain ⟨token, htok, hres⟩ :
          ∃ token, d.switchToken = some token ∧ token.resettable = true := by
        unfold noResettableToken at hfresh
        cases htok : d.switchToken with
        | none => simp [htok] at hfresh
        | some token => exact ⟨token, rfl, by simpa [htok] using hfresh⟩
      rw [switchCurrentTimeAsync_coalesced c root d token t useUndo htok hres, if_neg hne']
      simp [hc, List.countP_cons, Effect.isRegenerateStroke]
  · intro hc hfresh
    rw [switchCurrentTimeAsync_fresh c root d t useUndo hfresh hne']
    simp [hc, List.countP_cons, Effect.isRegenerateStroke]

/-- Witness of C6: on a freshly constructed interface the unbounded range
contains 10 (no regeneration stroke), the single-frame range around 0 does not
(one regeneration stroke). -/
theorem switchCurrentTimeAsync_range_containment_witness :
    (10 : Int) ≠ currentUITime construct
    ∧ (keepRange emptyNode (currentUITime construct) (KisTimeRange.infinite 0) true).contains 10
        = true
    ∧ (switchCurrentTimeAsync keepRange emptyNode construct 10 true).2.countP
        Effect.isRegenerateStroke = 0
    ∧ (singleFrame emptyNode (currentUITime construct) (KisTimeRange.infinite 0) true).contains 10
        = false
    ∧ noResettableToken construct = true
    ∧ (switchCurrentTimeAsync singleFrame emptyNode construct 10 true).2.countP
        Effect.isRegenerateStroke = 1 :=
  ⟨by decide, by decide,
    ((switchCurrentTimeAsync_range_containment keepRange emptyNode construct 10 true
      (by decide)).1 (by decide)).1,
    by decide, by decide,
    (switchCurrentTimeAsync_range_containment singleFrame emptyNode construct 10 true
      (by decide)).2 (by decide) (by decide)⟩

/-! ## The invalidation tracker -/

/-- C7 fails as stated for nested scopes: after `saveAndResetCurrentTime(5)`,
an inner pair `saveAndResetCurrentTime(7)` / `restoreCurrentTime` (restoring
the 5 it saved) clears the flag, so a `notifyNodeChanged` issued before the
outer restore (of the 0 saved first) raises `sigFramesChanged`. -/
theorem notifyNodeChanged_inside_outer_scope_emits :
    (saveAndResetCurrentTime construct 5).2 = 0
    ∧ (saveAndResetCurrentTime (saveAndResetCurrentTime construct 5).1 7).2 = 5
    ∧ (runOps keepRange construct
        [.saveAndResetCurrentTime 5, .saveAndResetCurrentTime 7, .restoreCurrentTime 5,
          .notifyNodeChanged emptyNode sampleRect false, .restoreCurrentTime 0]).2 =
        [Effect.sigFramesChanged (KisTimeRange.infinite 0) sampleRect] := by
  decide

/-- C7 (amended): if `externalFrameActive` is true, or
`frameInvalidationBlocked` is true, or the node is a selection mask,
`notifyNodeChanged` emits nothing and leaves the whole state unchanged; hence
after `saveAndResetCurrentTime` and until the next `restoreCurrentTime` call
(also one inside `setDefaultProjectionColor`), whatever other member functions
are called in between, no call of `notifyNodeChanged` raises
`sigFramesChanged`. -/
theorem notifyNodeChanged_suppression (c : CalcRange) (d : Private) (node : KisNode)
    (rect : QRect) (recursive : Bool) :
    ((d.externalFrameActive = true ∨ d.frameInvalidationBlocked = true
        ∨ node.isSelectionMask = true) →
      notifyNodeChanged c d node rect recursive = (d, []))
    ∧ (∀ (frameId : Int) (ops : List Op), (∀ op ∈ ops, op.restores = false) →
      notifyNodeChanged c (runOps c (saveAndResetCurrentTime d frameId).1 ops).1 node rect
          recursive =
        ((runOps c (saveAndResetCurrentTime d frameId).1 ops).1, [])) := by
  refine ⟨notifyNodeChanged_of_guard c d node rect recursive, ?_⟩
  intro frameId ops hops
  apply notifyNodeChanged_of_guard
  left
  apply runOps_keeps_externalFrameActive c ops _ hops
  simp [saveAndResetCurrentTime, Private.setCurrentTime]

/-- Witness of C7 (amended): with invalidation blocked the notification is
dropped, and inside a save scope in which the time was switched and the block
lifted it is dropped as well. -/
theorem notifyNodeChanged_suppression_witness :
    notifyNodeChanged keepRange (blockFrameInvalidation construct true) emptyNode sampleRect
        false = (blockFrameInvalidation construct true, [])
    ∧ (notifyNodeChanged keepRange
        (runOps keepRange (saveAndResetCurrentTime construct 5).1
          [.explicitlySetCurrentTime 9, .blockFrameInvalidation false]).1
        emptyNode sampleRect false).2 = [] := by
  have h := notifyNodeChanged_suppression keepRange (blockFrameInvalidation construct true)
    emptyNode sampleRect false
  have h' := notifyNodeChanged_suppression keepRange construct emptyNode sampleRect false
  refine ⟨h.1 (Or.inr (Or.inl (by decide))), ?_⟩
  rw [h'.2 5 [.explicitlySetCurrentTime 9, .blockFrameInvalidation false] (by decide)]

/-- C8: when no suppression guard holds, `notifyNodeChanged(node, rect,
recursive)` emits exactly one `sigFramesChanged(range, rect)` with the given
rect, where `range` is `calculateTimeRangeRecursive(node, currentTime,
KisTimeRange(), false)` if `recursive`, else the content channel's
`affectedFrames(currentTime)` if the node has a content channel, else
`infinite(0)`; the time is the engine time `currentTime`. -/
theorem notifyNodeChanged_emits (c : CalcRange) (d : Private) (node : KisNode) (rect : QRect)
    (recursive : Bool) (hext : d.externalFrameActive = false)
    (hblock : d.frameInvalidationBlocked = false) (hmask : node.isSelectionMask = false) :
    (notifyNodeChanged c d node rect recursive).2 =
      [Effect.sigFramesChanged
        (if recursive = true then c node d.m_currentTime KisTimeRange.default false
          else match node.getKeyframeChannel contentChannelId with
            | some channel => channel.affectedFrames d.m_currentTime
            | none => KisTimeRange.infinite 0)
        rect]
    ∧ (notifyNodeChanged c d node rect recursive).1 = { d with cachedLastFrameValue := -1 } := by
  unfold notifyNodeChanged externalFrameActive
  cases recursive with
  | true => simp [hext, hblock, hmask, invalidateFrames, currentTime, Private.currentTime]
  | false =>
    cases hch : node.getKeyframeChannel contentChannelId with
    | none => simp [hext, hblock, hmask, invalidateFrames, hch]
    | some channel =>
      simp [hext, hblock, hmask, invalidateFrames, hch, Private.currentTime]

/-- Witness of C8: at engine time 9 and UI time 0, a non-recursive change of a
node with a content channel invalidates the channel's range at time 9, and a
recursive one the range computed at time 9. -/
theorem notifyNodeChanged_emits_witness :
    (explicitlySetCurrentTime construct 9).externalFrameActive = false
    ∧ (explicitlySetCurrentTime construct 9).frameInvalidationBlocked = false
    ∧ leafAffectingThree.isSelectionMask = false
    ∧ (notifyNodeChanged singleFrame (explicitlySetCurrentTime construct 9) leafAffectingThree
        sampleRect false).2 = [Effect.sigFramesChanged (KisTimeRange.fromTime 9 11) sampleRect]
    ∧ (notifyNodeChanged singleFrame (explicitlySetCurrentTime construct 9) leafAffectingThree
        sampleRect true).2 = [Effect.sigFramesChanged (KisTimeRange.fromTime 9 9) sampleRect] := by
  have h₁ := notifyNodeChanged_emits singleFrame (explicitlySetCurrentTime construct 9)
    leafAffectingThree sampleRect false (by decide) (by decide) (by decide)
  have h₂ := notifyNodeChanged_emits singleFrame (explicitlySetCurrentTime construct 9)
    leafAffectingThree sampleRect true (by decide) (by decide) (by decide)
  refine ⟨by decide, by decide, by decide, ?_, ?_⟩
  · rw [h₁.1]; rfl
  · rw [h₂.1]; rfl

/-! ## Cache freshness -/

/-- C9 fails as stated when the keyframe times, the clip end and the UI time
are all negative: with the clip range set to [-20,-10], the UI time switched
to -5 and the only keyframe at time -3, the length after an invalidating
mutation is 1, not max(-3, -10, -5) + 1 = -2. -/
theorem totalLength_after_invalidation_negative_counterexample :
    latestKeyframeTime (leafWithKey (-3)) = -3
    ∧ (runOps keepRange construct
        [.setFullClipRange (KisTimeRange.fromTime (-20) (-10)),
          .switchCurrentTimeAsync (leafWithKey (-3)) (-5) false,
          .notifyNodeChanged (leafWithKey (-3)) sampleRect true]).1.cachedLastFrameValue = -1
    ∧ (totalLength (runOps keepRange construct
        [.setFullClipRange (KisTimeRange.fromTime (-20) (-10)),
          .switchCurrentTimeAsync (leafWithKey (-3)) (-5) false,
          .notifyNodeChanged (leafWithKey (-3)) sampleRect true]).1 (leafWithKey (-3))).1 = 1
    ∧ max (max (latestKeyframeTime (leafWithKey (-3))) (-10)) (-5) + 1 = (-2 : Int) := by
  decide

/-- C9 (amended): after `invalidateFrames`, and after every `notifyNodeChanged`
that is not suppressed, the cached last-keyframe value is -1 whatever it was
before, so the next `totalLength()` over the tree `root` present at that call
is `max(L', fullClipRange.end, currentUITime) + 1` (in `int` arithmetic) where
`L'` is the larger of 0 and the latest last-keyframe time `L` of the tree; this
is `max(L, fullClipRange.end, currentUITime) + 1` whenever one of `L`, the clip
end and the UI time is non-negative and the sum is representable. -/
theorem totalLength_after_invalidation (c : CalcRange) (d : Private) (range : KisTimeRange)
    (rect : QRect) (node : KisNode) (recursive : Bool) (root : KisNode) :
    (invalidateFrames d range rect).1.cachedLastFrameValue = -1
    ∧ (totalLength (invalidateFrames d range rect).1 root).1 =
        wrapInt (max (max (max 0 (latestKeyframeTime root)) d.fullClipRange.end_)
          d.m_currentUITime + 1)
    ∧ ((d.externalFrameActive = false ∧ d.frameInvalidationBlocked = false
          ∧ node.isSelectionMask = false) →
        (notifyNodeChanged c d node rect recursive).1 = (invalidateFrames d range rect).1)
    ∧ ((0 ≤ latestKeyframeTime root ∨ 0 ≤ d.fullClipRange.end_ ∨ 0 ≤ d.m_currentUITime) →
        isInt (max (max (latestKeyframeTime root) d.fullClipRange.end_) d.m_currentUITime + 1) →
        (totalLength (invalidateFrames d range rect).1 root).1 =
          max (max (latestKeyframeTime root) d.fullClipRange.end_) d.m_currentUITime + 1) := by
  have hval : (totalLength (invalidateFrames d range rect).1 root).1 =
      wrapInt (max (max (max 0 (latestKeyframeTime root)) d.fullClipRange.end_)
        d.m_currentUITime + 1) := by
    rw [← findLastKeyframeTimeRecursive_eq_max root]
    simp [totalLength, invalidateFrames, Private.currentUITime]
  refine ⟨rfl, hval, ?_, ?_⟩
  · rintro ⟨hext, hblock, hmask⟩
    rw [notifyNodeChanged_state_of_no_guard c d node rect recursive hext hblock hmask]
    rfl
  · intro hnn hint
    have hmax : max (max (max 0 (latestKeyframeTime root)) d.fullClipRange.end_)
        d.m_currentUITime =
        max (max (latestKeyframeTime root) d.fullClipRange.end_) d.m_currentUITime := by
      simp only [max_def]
      split_ifs <;> omega
    rw [hval, hmax, wrapInt_of_isInt hint]

/-- Witness of C9 (the scenario of the claim): clip range [0,100], UI time 0,
a stale cache of 7, and a tree whose latest keyframe is at 150; after an
unsuppressed `notifyNodeChanged` the cache is unknown and `totalLength()` is
151. -/
theorem totalLength_after_invalidation_witness :
    ({ construct with cachedLastFrameValue := 7 } : Private).externalFrameActive = false
    ∧ (notifyNodeChanged keepRange { construct with cachedLastFrameValue := 7 }
        (leafWithKey 150) sampleRect true).1.cachedLastFrameValue = -1
    ∧ (totalLength (notifyNodeChanged keepRange { construct with cachedLastFrameValue := 7 }
        (leafWithKey 150) sampleRect true).1 (.mk false [] [leafWithKey 150, leafWithKey 7])).1
        = 151 := by
  have h := totalLength_after_invalidation keepRange { construct with cachedLastFrameValue := 7 }
    (KisTimeRange.infinite 0) sampleRect (leafWithKey 150) true
    (.mk false [] [leafWithKey 150, leafWithKey 7])
  have hn := h.2.2.1 ⟨by decide, by decide, by decide⟩
  refine ⟨by decide, ?_, ?_⟩
  · rw [hn]; exact h.1
  · rw [hn, h.2.2.2 (Or.inl (by decide)) (by decide)]
    decide

/-! ## Fresh interface, optimistic UI time, dispatch order -/

/-- C11: on a freshly constructed interface (full clip range [0,100], UI time
0, cache unknown), over any scene tree in which no channel of any node has a
keyframe, `totalLength()` returns 101. -/
theorem totalLength_fresh_without_keyframes (root : KisNode)
    (h : subtreeLastKeyframeTimes root = []) :
    (totalLength construct root).1 = 101
    ∧ construct.fullClipRange = KisTimeRange.fromTime 0 100
    ∧ currentUITime construct = 0
    ∧ construct.cachedLastFrameValue = -1 := by
  refine ⟨?_, rfl, rfl, rfl⟩
  have hfind := findLastKeyframeTimeRecursive_of_no_keyframe root h
  have hval : (totalLength construct root).1 = wrapInt (max (max
      (findLastKeyframeTimeRecursive root) 100) 0 + 1) := by
    simp [totalLength, construct, KisTimeRange.fromTime, Private.currentUITime]
  rw [hval, hfind]
  decide

/-- Witness of C11: a root over a leaf whose channel has no keyframe and a
leaf without channels. -/
theorem totalLength_fresh_without_keyframes_witness :
    subtreeLastKeyframeTimes (.mk false [] [leafWithoutKey, emptyNode]) = []
    ∧ (totalLength construct (.mk false [] [leafWithoutKey, emptyNode])).1 = 101 :=
  ⟨by decide,
    (totalLength_fresh_without_keyframes (.mk false [] [leafWithoutKey, emptyNode])
      (by decide)).1⟩

/-- C12 (optimistic UI time): for every state and every `t` other than the UI
time, right after `switchCurrentTimeAsync(t, useUndo)` the UI time is `t`,
exactly one `sigUiTimeChanged` has been emitted and it carries `t` (whether the
request was merged into a token or created a task, with or without
regeneration), and the engine time `currentTime()` is unchanged. -/
theorem switchCurrentTimeAsync_optimistic_ui_time (c : CalcRange) (root : KisNode) (d : Private)
    (t : Int) (useUndo : Bool) (hne : t ≠ currentUITime d) :
    currentUITime (switchCurrentTimeAsync c root d t useUndo).1 = t
    ∧ (switchCurrentTimeAsync c root d t useUndo).2.filter Effect.isUiTimeChanged =
        [Effect.sigUiTimeChanged t]
    ∧ currentTime (switchCurrentTimeAsync c root d t useUndo).1 = currentTime d := by
  have hne' : d.m_currentUITime ≠ t := fun h => hne h.symm
  simp only [currentUITime, currentTime, Private.currentUITime, Private.currentTime]
  by_cases hfresh : noResettableToken d = true
  · rw [switchCurrentTimeAsync_fresh c root d t useUndo hfresh hne']
    cases (c root d.m_currentUITime (KisTimeRange.infinite 0) true).contains t <;>
      simp [List.filter, Effect.isUiTimeChanged]
  · obtain ⟨token, htok, hres⟩ :
        ∃ token, d.switchToken = some token ∧ token.resettable = true := by
      unfold noResettableToken at hfresh
      cases htok : d.switchToken with
      | none => simp [htok] at hfresh
      | some token => exact ⟨token, rfl, by simpa [htok] using hfresh⟩
    rw [switchCurrentTimeAsync_coalesced c root d token t useUndo htok hres, if_neg hne']
    simp [List.filter, Effect.isUiTimeChanged]

/-- Witness of C12: a request for time 10 that creates a task with
regeneration, and a following request for time 50 that is merged into it, both
at engine time 0. -/
theorem switchCurrentTimeAsync_optimistic_ui_time_witness :
    (10 : Int) ≠ currentUITime construct
    ∧ currentUITime (switchCurrentTimeAsync singleFrame emptyNode construct 10 true).1 = 10
    ∧ (50 : Int) ≠ currentUITime (switchCurrentTimeAsync singleFrame emptyNode construct 10 true).1
    ∧ (switchCurrentTimeAsync singleFrame emptyNode
        (switchCurrentTimeAsync singleFrame emptyNode construct 10 true).1 50 false).2.filter
          Effect.isUiTimeChanged = [Effect.sigUiTimeChanged 50] :=
  ⟨by decide,
    (switchCurrentTimeAsync_optimistic_ui_time singleFrame emptyNode construct 10 true
      (by decide)).1,
    by decide,
    (switchCurrentTimeAsync_optimistic_ui_time singleFrame emptyNode
      (switchCurrentTimeAsync singleFrame emptyNode construct 10 true).1 50 false
      (by decide)).2.1⟩

/-- C15 (dispatch order): when `switchCurrentTimeAsync(t, useUndo)`, called
for a time other than the UI time, finds no resettable token, the strokes it
hands to the image are, in order: the start and the end of one switch-time
stroke for `t` (with the undo adapter iff `useUndo`), and then, iff
regeneration is required, the start and the end of one regenerate-frame
stroke, with nothing in between; the new token, for `t` with the same
regeneration flag, is recorded as the switch token. -/
theorem switchCurrentTimeAsync_dispatch_order (c : CalcRange) (root : KisNode) (d : Private)
    (t : Int) (useUndo : Bool) (hne : t ≠ currentUITime d)
    (hfresh : noResettableToken d = true) :
    (switchCurrentTimeAsync c root d t useUndo).2 =
        [Effect.startStroke (.switchTime t
            (!(c root (currentUITime d) (KisTimeRange.infinite 0) true).contains t) useUndo),
          Effect.endStroke (.switchTime t
            (!(c root (currentUITime d) (KisTimeRange.infinite 0) true).contains t) useUndo)]
        ++ (if (c root (currentUITime d) (KisTimeRange.infinite 0) true).contains t = true
            then []
            else [Effect.startStroke .regenerateFrame, Effect.endStroke .regenerateFrame])
        ++ [Effect.sigUiTimeChanged t]
    ∧ (switchCurrentTimeAsync c root d t useUndo).1.switchToken =
        some ⟨t, !(c root (currentUITime d) (KisTimeRange.infinite 0) true).contains t, true⟩
    ∧ (switchCurrentTimeAsync c root d t useUndo).2.countP Effect.isSwitchStroke = 1
    ∧ (switchCurrentTimeAsync c root d t useUndo).2.countP Effect.isStroke =
        (if (c root (currentUITime d) (KisTimeRange.infinite 0) true).contains t = true
          then 1 else 2) := by
  have hne' : d.m_currentUITime ≠ t := fun h => hne h.symm
  simp only [currentUITime, Private.currentUITime]
  rw [switchCurrentTimeAsync_fresh c root d t useUndo hfresh hne']
  rcases Bool.eq_false_or_eq_true
      ((c root d.m_currentUITime (KisTimeRange.infinite 0) true).contains t) with hc | hc <;>
    simp [hc, List.countP_cons, Effect.isSwitchStroke, Effect.isStroke]

/-- Witness of C15: on a freshly constructed interface a request for time 10
with undo, whose range does not contain 10, dispatches the switch stroke and
then the regeneration stroke. -/
theorem switchCurrentTimeAsync_dispatch_order_witness :
    (10 : Int) ≠ currentUITime construct
    ∧ noResettableToken construct = true
    ∧ (switchCurrentTimeAsync singleFrame emptyNode construct 10 true).2 =
        [Effect.startStroke (.switchTime 10 true true),
          Effect.endStroke (.switchTime 10 true true),
          Effect.startStroke .regenerateFrame,
          Effect.endStroke .regenerateFrame,
          Effect.sigUiTimeChanged 10] := by
  have h := switchCurrentTimeAsync_dispatch_order singleFrame emptyNode construct 10 true
    (by decide) (by decide)
  refine ⟨by decide, by decide, ?_⟩
  rw [h.1]
  decide

/-! ## Scoped save and restore -/

/-- C13 fails as stated for nested pairs: inside the scope opened by
`saveAndResetCurrentTime(5)`, after the inner pair `saveAndResetCurrentTime(7)`
/ `restoreCurrentTime` (or after `setDefaultProjectionColor`, which runs such a
pair) the engine time is 5 again, the outer restore is still to come, and
`externalFrameActive` is false. -/
theorem externalFrameActive_cleared_by_inner_restore :
    externalFrameActive (restoreCurrentTime
        (saveAndResetCurrentTime (saveAndResetCurrentTime construct 5).1 7).1
        (saveAndResetCurrentTime (saveAndResetCurrentTime construct 5).1 7).2) = false
    ∧ currentTime (restoreCurrentTime
        (saveAndResetCurrentTime (saveAndResetCurrentTime construct 5).1 7).1
        (saveAndResetCurrentTime (saveAndResetCurrentTime construct 5).1 7).2) = 5
    ∧ externalFrameActive
        (setDefaultProjectionColor (saveAndResetCurrentTime construct 5).1) = false
    ∧ currentTime (setDefaultProjectionColor (saveAndResetCurrentTime construct 5).1) = 5 := by
  decide

/-- C13 (amended): `saveAndResetCurrentTime(f, &s)` sets the engine time to
`f`, stores the previous engine time in `s`, raises `externalFrameActive` and
changes nothing else; the following `restoreCurrentTime(&s)` brings the engine
time back and leaves the state as it was before the save except that
`externalFrameActive` is false.  The flag stays raised at every point from a
save up to the next restore, whatever else is called.  A nested pair brings
the engine time back to that of the enclosing scope but clears the flag for
the rest of that scope, after which the outer restore still brings back the
original engine time. -/
theorem saveAndResetCurrentTime_restoreCurrentTime_scope (c : CalcRange) (d : Private)
    (frameId : Int) :
    (saveAndResetCurrentTime d frameId).1 =
        { d with externalFrameActive := true, m_currentTime := frameId }
    ∧ (saveAndResetCurrentTime d frameId).2 = currentTime d
    ∧ restoreCurrentTime (saveAndResetCurrentTime d frameId).1
        (saveAndResetCurrentTime d frameId).2 = { d with externalFrameActive := false }
    ∧ (∀ ops : List Op, (∀ op ∈ ops, op.restores = false) →
        externalFrameActive (runOps c (saveAndResetCurrentTime d frameId).1 ops).1 = true)
    ∧ (∀ inner : Int,
        restoreCurrentTime
            (saveAndResetCurrentTime (saveAndResetCurrentTime d frameId).1 inner).1
            (saveAndResetCurrentTime (saveAndResetCurrentTime d frameId).1 inner).2 =
          { d with externalFrameActive := false, m_currentTime := frameId }
        ∧ restoreCurrentTime
            (restoreCurrentTime
              (saveAndResetCurrentTime (saveAndResetCurrentTime d frameId).1 inner).1
              (saveAndResetCurrentTime (saveAndResetCurrentTime d frameId).1 inner).2)
            (saveAndResetCurrentTime d frameId).2 = { d with externalFrameActive := false }) := by
  refine ⟨rfl, rfl, rfl, ?_, fun inner => ⟨rfl, rfl⟩⟩
  intro ops hops
  exact runOps_keeps_externalFrameActive c ops _ hops rfl

/-- Witness of C13 (amended): on a freshly constructed interface, a scope at
frame 5 in which the engine time is set explicitly and the length is queried
keeps the flag raised, and the restore returns to engine time 0. -/
theorem saveAndResetCurrentTime_restoreCurrentTime_scope_witness :
    externalFrameActive (runOps keepRange (saveAndResetCurrentTime construct 5).1
        [.explicitlySetCurrentTime 9, .totalLength emptyNode]).1 = true
    ∧ restoreCurrentTime (saveAndResetCurrentTime construct 5).1
        (saveAndResetCurrentTime construct 5).2 = construct := by
  have h := saveAndResetCurrentTime_restoreCurrentTime_scope keepRange construct 5
  refine ⟨h.2.2.2.1 [.explicitlySetCurrentTime 9, .totalLength emptyNode] (by decide), ?_⟩
  rw [h.2.2.1]
  rfl

/-! ## Frame rate -/

/-- C14 fails as stated: `setFramerate` stores any integer, so after
`setFramerate(0)` or `setFramerate(-5)` on a freshly constructed interface the
frame rate is not positive. -/
theorem setFramerate_stores_nonpositive :
    framerate (setFramerate construct 0).1 = 0
    ∧ framerate (setFramerate construct (-5)).1 = -5
    ∧ ¬ 0 < framerate (runOps keepRange construct [.setFramerate 0]).1 := by
  decide

/-- C14 (amended): `framerate()` is 24 after construction; `setFramerate` and
`setFullClipRange` each store their argument, change nothing else and emit
exactly one `sigFramerateChanged` / `sigFullClipRangeChanged`; in every state
reached from construction through the member functions the frame rate is the
argument of the last `setFramerate` call (24 if there was none), so it is
positive provided no `setFramerate` call had a zero or negative argument. -/
theorem framerate_invariant (c : CalcRange) (d : Private) (fps : Int) (range : KisTimeRange)
    (ops : List Op) :
    framerate construct = 24
    ∧ setFramerate d fps = ({ d with framerate := fps }, [Effect.sigFramerateChanged])
    ∧ setFullClipRange d range =
        ({ d with fullClipRange := range }, [Effect.sigFullClipRangeChanged])
    ∧ framerate (runOps c construct ops).1 = ops.foldl Op.framerateAfter 24
    ∧ ((∀ op ∈ ops, op.keepsFrameratePositive = true) →
        0 < framerate (runOps c construct ops).1) := by
  have hrun : framerate (runOps c construct ops).1 = ops.foldl Op.framerateAfter 24 :=
    runOps_framerate c ops construct
  refine ⟨rfl, rfl, rfl, hrun, ?_⟩
  intro hops
  rw [hrun]
  exact foldl_framerateAfter_pos ops 24 (by decide) hops

/-- Witness of C14 (amended): after setting the clip range, the frame rate to
30, switching the time and setting the frame rate to 12, the frame rate is 12. -/
theorem framerate_invariant_witness :
    framerate (runOps keepRange construct
        [.setFullClipRange (KisTimeRange.fromTime 0 10), .setFramerate 30,
          .switchCurrentTimeAsync emptyNode 3 false, .setFramerate 12]).1 = 12
    ∧ 0 < framerate (runOps keepRange construct
        [.setFullClipRange (KisTimeRange.fromTime 0 10), .setFramerate 30,
          .switchCurrentTimeAsync emptyNode 3 false, .setFramerate 12]).1 := by
  have h := framerate_invariant keepRange construct 30 (KisTimeRange.fromTime 0 10)
    [.setFullClipRange (KisTimeRange.fromTime 0 10), .setFramerate 30,
      .switchCurrentTimeAsync emptyNode 3 false, .setFramerate 12]
  refine ⟨?_, h.2.2.2.2 (by decide)⟩
  rw [h.2.2.2.1]
  rfl

end Krita
